import Mathlib

/-!
# Verification of the worktree-tui interactive core

Shallow embedding of the Go sources of `worktree-tui` (packages `ui` and
`types`): the text-layout utilities, the domain model, the Bubbletea
`Update`/`handleKey` state machine and the pure parts of the render layer.

Modelling conventions, used throughout:
* Go strings are modelled as `String` / `List Char`; Go `len` on the rune
  slice and lipgloss display width are both modelled as the character
  count (exact for the 1-cell-wide characters the program manipulates).
* Lipgloss styles only inject ANSI colour codes around their argument, so
  `style.Render` is modelled as the identity on text; consequently
  `lipgloss.Width`/`lipgloss.Height` are the maximal line length and the
  line count of the rendered text.
* Go `int` is modelled as `Int`.
* External processes (git, gh, filesystem) are outside the model: the
  commands the state machine issues are reified as a `Cmd` datatype, and
  the data external calls would return is carried by the completion
  messages exactly as in the Go message structs.
-/

namespace WorktreeTui

/-- A run of `n` spaces (`strings.Repeat(" ", n)`; negative counts give ""). -/
def spaces (n : Int) : String := String.mk (List.replicate n.toNat ' ')

/-- `lipgloss.Width`: widest line of a (possibly multi-line) string. -/
def lipglossWidth (s : String) : Int :=
  ((s.splitOn "\n").map (fun l => (l.length : Int))).foldl max 0

/-- `lipgloss.Height`: number of lines of a string. -/
def lipglossHeight (s : String) : Int := ((s.splitOn "\n").length : Int)

/-- `strings.Join` -/
def strJoin (parts : List String) (sep : String) : String :=
  String.intercalate sep parts

-- ── Text layout utilities (view.go) ──────────────────────────────────────────

/-- `truncate(s string, max int) string` from view.go:

```go
func truncate(s string, max int) string {
    if max <= 0 { return "" }
    r := []rune(s)
    if len(r) <= max { return s }
    if max <= 1 { return string(r[:max]) }
    return string(r[:max-1]) + "…"
}
```
Modelled on the rune slice directly (`List Char`). -/
def truncate (s : List Char) (max : Int) : List Char :=
  if max ≤ 0 then []
  else if (s.length : Int) ≤ max then s
  else if max ≤ 1 then s.take max.toNat
  else s.take (max.toNat - 1) ++ ['…']

/-- String wrapper for `truncate`. -/
def truncateS (s : String) (max : Int) : String := String.mk (truncate s.data max)

/-- `padRight(s string, width int)` from view.go: append spaces until the
display width reaches `width`. -/
def padRight (s : String) (width : Int) : String :=
  let w := lipglossWidth s
  if w ≥ width then s else s ++ spaces (width - w)

/-- `strings.Split(s, "\n")` on rune lists. -/
def splitOnChar (c : Char) : List Char → List (List Char)
  | [] => [[]]
  | x :: xs =>
    let r := splitOnChar c xs
    if x = c then [] :: r
    else
      match r with
      | [] => [[x]]
      | h :: t => (x :: h) :: t

/-- `strings.Fields`: maximal runs of non-whitespace characters.
(Go's `unicode.IsSpace` also accepts some exotic Unicode spaces;
`Char.isWhitespace` covers the ASCII whitespace actually used.) -/
def fields : List Char → List (List Char)
  | [] => []
  | c :: cs =>
    let r := fields cs
    if c.isWhitespace then r
    else
      match cs with
      | [] => [[c]]
      | c' :: _ =>
        if c'.isWhitespace then [c] :: r
        else
          match r with
          | [] => [[c]]
          | w :: ws => (c :: w) :: ws

/-- The inner word loop of `wrapWords`: greedy packing of `words` into
`lines`, with `line` the line currently being built (Go builds `line` as a
string; `line = []` is Go's `line == ""`). -/
def packLoop (width : Int) (lines : List (List Char)) (line : List Char) :
    List (List Char) → List (List Char)
  | [] => if line = [] then lines else lines ++ [line]
  | w :: ws =>
    if line = [] then packLoop width lines w ws
    else if (line.length : Int) + 1 + (w.length : Int) ≤ width then
      packLoop width lines (line ++ ' ' :: w) ws
    else
      packLoop width (lines ++ [line]) w ws

/-- `wrapWords(s string, width int) []string` from view.go:

```go
func wrapWords(s string, width int) []string {
    if width <= 0 { return []string{s} }
    var lines []string
    for _, paragraph := range strings.Split(s, "\n") {
        words := strings.Fields(paragraph)
        line := ""
        for _, w := range words { ... greedy packing ... }
        if line != "" { lines = append(lines, line) }
    }
    return lines
}
``` -/
def wrapWords (s : List Char) (width : Int) : List (List Char) :=
  if width ≤ 0 then [s]
  else (splitOnChar '\n' s).foldl (fun lines para => packLoop width lines [] (fields para)) []

/-- String wrapper for `wrapWords`. -/
def wrapWordsS (s : String) (width : Int) : List String :=
  (wrapWords s.data width).map String.mk

/-- All whitespace-delimited words of all paragraphs of `s` — the pool of
words `wrapWords` packs into lines. -/
def allWords (s : List Char) : List (List Char) :=
  ((splitOnChar '\n' s).map fields).flatten

/-- `dropLast(s string)`: remove the last rune (update.go). -/
def dropLast (s : String) : String := String.mk s.data.dropLast

-- ── slugify (update.go) ──────────────────────────────────────────────────────

/-- Separator characters trimmed from the right of a slug: the hyphen and
the slash (the cutset of Go's `strings.TrimRight` call in `slugify`). -/
def isSep (c : Char) : Bool := c = '-' || c = '/'

/-- Go's `strings.TrimRight` with the hyphen-slash cutset, by structural
recursion: drop every trailing `-` or `/`. -/
def trimRightSep : List Char → List Char
  | [] => []
  | c :: cs =>
    match trimRightSep cs with
    | [] => if isSep c then [] else [c]
    | r => c :: r

/-- The rune loop of `slugify`: `b` is the builder contents so far,
`prevSep` the flag suppressing repeated hyphens. Mirrors:

```go
for _, r := range strings.ToLower(s) {
    switch {
    case r >= 'a' && r <= 'z', r >= '0' && r <= '9':
        b.WriteRune(r); prevSep = false
    case r == '/':
        b.WriteRune('/'); prevSep = false
    case unicode.IsSpace(r) || r == '_' || r == '-':
        if !prevSep && b.Len() > 0 { b.WriteRune('-'); prevSep = true }
    }
}
``` -/
def slugifyLoop : List Char → List Char → Bool → List Char
  | [], b, _ => b
  | r :: rs, b, prevSep =>
    if ('a' ≤ r ∧ r ≤ 'z') ∨ ('0' ≤ r ∧ r ≤ '9') then slugifyLoop rs (b ++ [r]) false
    else if r = '/' then slugifyLoop rs (b ++ ['/']) false
    else if r.isWhitespace ∨ r = '_' ∨ r = '-' then
      if prevSep = false ∧ b ≠ [] then slugifyLoop rs (b ++ ['-']) true
      else slugifyLoop rs b prevSep
    else slugifyLoop rs b prevSep

/-- `slugify(s string) string` from update.go: lower-case, keep `a-z0-9`,
preserve `/`, collapse space/underscore/hyphen runs to a single hyphen
(never at the start of the builder), trim trailing `-` and `/`. -/
def slugify (s : List Char) : List Char :=
  trimRightSep (slugifyLoop (s.map Char.toLower) [] false)

/-- String wrapper for `slugify`. -/
def slugifyS (s : String) : String := String.mk (slugify s.data)

end WorktreeTui

namespace WorktreeTui

-- ── Domain model (internal/types/types.go) ───────────────────────────────────

/-- `AppState`: the closed set of screens/modes. -/
inductive AppState
  | StateNoGit
  | StateShellSetup
  | StateList
  | StateNewWorktree
  | StateEditWorktree
  | StateDeleteConfirm
  | StateRightPaneFocused
  | StateCommitDetail
deriving DecidableEq, Inhabited, Repr

/-- `Commit`: one commit in the detail pane. -/
structure Commit where
  Hash : String := ""
  Message : String := ""
  RelTime : String := ""
deriving DecidableEq, Inhabited, Repr

/-- `Worktree`: metadata for one git worktree. -/
structure Worktree where
  Name : String := ""
  Path : String := ""
  Branch : String := ""
  IsMain : Bool := false
  UpdatedAt : String := ""
  Description : String := ""
  CreatedFrom : String := ""
  Ahead : Int := 0
  Behind : Int := 0
  IsMerged : Bool := false
  Commits : List Commit := []
  HeadSHA : String := ""
  StatusChanged : Int := 0
  StatusUntracked : Int := 0
deriving DecidableEq, Inhabited, Repr

/-- `PRInfo`: result of a `gh pr view` call. -/
structure PRInfo where
  State : String := ""
  Number : Int := 0
  URL : String := ""
deriving DecidableEq, Inhabited, Repr

/-- `CommitFile`: one file entry of the "files changed" section. -/
structure CommitFile where
  Status : String := ""
  Path : String := ""
deriving DecidableEq, Inhabited, Repr

/-- `DiffLine`: one categorised line of the patch.  The Go field `Type` is a
Lean keyword, modelled as `LineType`. -/
structure DiffLine where
  LineType : String := ""
  Content : String := ""
deriving DecidableEq, Inhabited, Repr

/-- `CommitDetail`: full data for the Level-3 commit overlay. -/
structure CommitDetail where
  ShortHash : String := ""
  Subject : String := ""
  Body : String := ""
  RelTime : String := ""
  Files : List CommitFile := []
  Diff : List DiffLine := []
  Loaded : Bool := false
deriving DecidableEq, Inhabited, Repr

/-- The PR cache `map[string]*types.PRInfo`, as an association list:
absent key = not fetched; `some none` = fetched, no PR;
`some (some info)` = fetched with data.  (The Go `nil`-map lazy
initialisation is a no-op here: the empty list is the empty map.) -/
def PRCache := List (String × Option PRInfo)
deriving DecidableEq, Inhabited

/-- Map lookup `m.prCache[branch]` (`none` = key absent). -/
def lookupPR (k : String) : PRCache → Option (Option PRInfo)
  | [] => none
  | (k', v) :: rest => if k' = k then some v else lookupPR k rest

/-- Map store `m.prCache[branch] = info` (overwrite or append). -/
def insertPR (k : String) (v : Option PRInfo) : PRCache → PRCache
  | [] => [(k, v)]
  | (k', v') :: rest => if k' = k then (k, v) :: rest else (k', v') :: insertPR k v rest

-- ── Model (ui/model.go) ──────────────────────────────────────────────────────

/-- The root Bubbletea `Model` struct (ui/model.go), field for field. -/
structure Model where
  state : AppState := .StateNoGit
  worktrees : List Worktree := []
  repoName : String := ""
  curBranch : String := ""
  cursor : Int := 0
  width : Int := 0
  height : Int := 0
  remoteURL : String := ""
  stashCount : Int := 0
  fetchedAgo : String := ""
  defaultBranch : String := ""
  ghAvailable : Bool := false
  prCache : PRCache := []
  hasCommits : Bool := false
  newTypeIdx : Int := 0
  newTypeListOpen : Bool := false
  newDisplayName : String := ""
  newBranch : String := ""
  newDescription : String := ""
  newActiveField : Int := 0
  newBranchEdited : Bool := false
  editName : String := ""
  selectedCommitIndex : Int := 0
  commitDetailScroll : Int := 0
  activeCommit : CommitDetail := {}
  errMsg : String := ""
deriving DecidableEq, Inhabited

/-- `InitialModel()`: the starting model (state `StateNoGit`, zero values). -/
def InitialModel : Model := {}

-- ── Messages and commands ────────────────────────────────────────────────────

/-- A `tea.KeyMsg`.  Constructors are the `tea.KeyType`s the handlers
switch on; `runes` is `tea.KeyRunes` carrying the typed characters. -/
inductive KeyMsg
  | ctrlC
  | up
  | down
  | enter
  | esc
  | tab
  | space
  | backspace
  | runes (rs : List Char)
deriving DecidableEq, Repr

/-- `tea.KeyMsg.String()` for the key types above (for `runes` it is the
runes themselves, exactly as in Bubbletea). -/
def keyString : KeyMsg → String
  | .ctrlC => "ctrl+c"
  | .up => "up"
  | .down => "down"
  | .enter => "enter"
  | .esc => "esc"
  | .tab => "tab"
  | .space => " "
  | .backspace => "backspace"
  | .runes rs => String.mk rs

/-- The payload of `worktreesLoadedMsg` (ui/model.go), field for field. -/
structure WorktreesLoadedData where
  worktrees : List Worktree := []
  repoName : String := ""
  curBranch : String := ""
  remoteURL : String := ""
  stashCount : Int := 0
  fetchedAgo : String := ""
  defaultBranch : String := ""
  ghAvailable : Bool := false
  hasCommits : Bool := false
  err : Option String := none
deriving DecidableEq, Inhabited

/-- The inbound messages of `Update` (Go errors become `Option String`).
`gitCheck` additionally carries the answer of the external
`git.IsShellIntegrated()` call the handler makes. -/
inductive Msg
  | windowSize (width height : Int)
  | gitCheck (isGit : Bool) (shellIntegrated : Bool)
  | worktreesLoaded (d : WorktreesLoadedData)
  | prFetched (branch : String) (info : Option PRInfo)
  | commitDetailLoaded (detail : Option CommitDetail) (err : Option String)
  | gitInit (err : Option String)
  | worktreeCreated (err : Option String)
  | worktreeDeleted (err : Option String)
  | worktreeRenamed (err : Option String)
  | key (k : KeyMsg)
deriving DecidableEq

/-- The asynchronous commands the state machine can issue (`tea.Cmd`
values reified; `quit` is `tea.Quit`).  `createWorktree`'s path argument
is the repo-relative `.wt/<safe-branch>` part — the absolute repo root the
Go code joins in comes from an external `git.GetRepoRoot()` call. -/
inductive Cmd
  | quit
  | loadWorktrees
  | fetchPR (branch : String)
  | loadCommitDetail (path hash : String)
  | createWorktree (displayName branch path description : String)
  | deleteWorktree (branch path : String)
  | renameWorktree (oldName newName : String)
  | initGitRepo
deriving DecidableEq

end WorktreeTui

namespace WorktreeTui

-- ── State machine (ui/update.go) ─────────────────────────────────────────────

/-- `branchTypes`: the list shown in the type-picker overlay. -/
def branchTypes : List String :=
  ["feat", "fix", "chore", "docs", "refactor",
   "test", "style", "ci", "perf", "release"]

/-- `m.worktrees[m.cursor-1]`.  Go panics when the index is out of range;
the default is unreachable under the cursor invariant proved below. -/
def getWt (m : Model) : Worktree :=
  (m.worktrees.get? (m.cursor - 1).toNat).getD {}

/-- `resetNewModal`: zero all new-worktree modal state. -/
def resetNewModal (m : Model) : Model :=
  { m with newTypeIdx := 0, newTypeListOpen := false, newDisplayName := "",
           newBranch := "", newDescription := "", newActiveField := 0,
           newBranchEdited := false }

/-- `openNewModal`: reset the modal fields and enter `StateNewWorktree`. -/
def openNewModal (m : Model) : Model :=
  { resetNewModal m with state := .StateNewWorktree }

/-- `branchTypes[i]` (Go panics out of range; `newTypeIdx` stays in range). -/
def branchTypeAt (i : Int) : String := (branchTypes.get? i.toNat).getD ""

/-- `recalcBranch`: rebuild the branch from type + slugified display name
unless the user has manually edited the branch field. -/
def recalcBranch (m : Model) : Model :=
  if m.newBranchEdited then m
  else
    let slug := slugifyS m.newDisplayName
    if slug = "" then { m with newBranch := branchTypeAt m.newTypeIdx }
    else { m with newBranch := branchTypeAt m.newTypeIdx ++ "/" ++ slug }

/-- `appendRunes`: add typed characters to the active form field.  In the
branch field whitespace becomes a hyphen and manual-edit mode latches. -/
def appendRunes (m : Model) (rs : List Char) : Model :=
  if m.newActiveField = 1 then
    recalcBranch { m with newDisplayName := m.newDisplayName ++ String.mk rs }
  else if m.newActiveField = 2 then
    { m with
      newBranch := m.newBranch ++ String.mk (rs.map fun r => if r.isWhitespace then '-' else r),
      newBranchEdited := true }
  else if m.newActiveField = 3 then
    { m with newDescription := m.newDescription ++ String.mk rs }
  else m

/-- `deleteChar`: remove the last rune from the active form field. -/
def deleteChar (m : Model) : Model :=
  if m.newActiveField = 1 then
    recalcBranch { m with newDisplayName := dropLast m.newDisplayName }
  else if m.newActiveField = 2 then
    { m with newBranch := dropLast m.newBranch, newBranchEdited := true }
  else if m.newActiveField = 3 then
    { m with newDescription := dropLast m.newDescription }
  else m

/-- `maybeFetchPR`: fire a PR fetch for the selected worktree when gh is
available, a real worktree is selected, it is not the main worktree, and
its branch is not already in the cache. -/
def maybeFetchPR (m : Model) : Option Cmd :=
  if ¬m.ghAvailable ∨ m.cursor = 0 ∨ (m.worktrees.length : Int) ≤ m.cursor - 1 then none
  else
    let wt := getWt m
    if wt.IsMain then none
    else if (lookupPR wt.Branch m.prCache).isSome then none
    else some (.fetchPR wt.Branch)

/-- `handleNoGit`. -/
def handleNoGit (m : Model) (k : KeyMsg) : Model × Option Cmd :=
  let s := keyString k
  if s = "i" then (m, some .initGitRepo)
  else if s = "q" then (m, some .quit)
  else (m, none)

/-- `handleShellSetup`.  The shell-integration writes are external side
effects with discarded errors; both answers land in `StateList` + reload. -/
def handleShellSetup (m : Model) (k : KeyMsg) : Model × Option Cmd :=
  let s := keyString k
  if s = "y" then ({ m with state := .StateList }, some .loadWorktrees)
  else if s = "n" ∨ s = "esc" ∨ s = "q" then ({ m with state := .StateList }, some .loadWorktrees)
  else (m, none)

/-- `handleList`: key handling in the main list state. -/
def handleList (m : Model) (k : KeyMsg) : Model × Option Cmd :=
  let total : Int := (m.worktrees.length : Int) + 1
  let s := keyString k
  if s = "q" then (m, some .quit)
  else if s = "up" ∨ s = "k" then
    let m' := if 0 < m.cursor then { m with cursor := m.cursor - 1 } else m
    (m', maybeFetchPR m')
  else if s = "down" ∨ s = "j" then
    let m' := if m.cursor < total - 1 then { m with cursor := m.cursor + 1 } else m
    (m', maybeFetchPR m')
  else if s = "enter" then
    if m.cursor = 0 then (openNewModal m, none)
    else if m.cursor - 1 < (m.worktrees.length : Int) then
      ({ m with selectedCommitIndex := 0, state := .StateRightPaneFocused }, none)
    else (m, none)
  else if s = "n" then (openNewModal m, none)
  else if s = "d" then
    if 0 < m.cursor ∧ (getWt m).IsMain = false then
      ({ m with state := .StateDeleteConfirm }, none)
    else (m, none)
  else if s = "e" then
    if 0 < m.cursor then
      ({ m with editName := (getWt m).Branch, state := .StateEditWorktree }, none)
    else (m, none)
  else if s = "c" then
    -- `git.WriteCDPath(path)` is an external side effect; the transition
    -- itself is "quit".
    if 0 < m.cursor then (m, some .quit) else (m, none)
  else (m, none)

/-- `handleTypeList`: key handling while the type-picker overlay is open. -/
def handleTypeList (m : Model) (k : KeyMsg) : Model × Option Cmd :=
  let s := keyString k
  if s = "up" ∨ s = "k" then
    (if 0 < m.newTypeIdx then { m with newTypeIdx := m.newTypeIdx - 1 } else m, none)
  else if s = "down" ∨ s = "j" then
    (if m.newTypeIdx < (branchTypes.length : Int) - 1 then
       { m with newTypeIdx := m.newTypeIdx + 1 } else m, none)
  else if s = "enter" then
    (recalcBranch { m with newTypeListOpen := false }, none)
  else if s = "esc" then
    ({ m with newTypeListOpen := false }, none)
  else (m, none)

/-- `handleNewWorktree`: the create-modal handler (form or type picker). -/
def handleNewWorktree (m : Model) (k : KeyMsg) : Model × Option Cmd :=
  if m.newTypeListOpen then handleTypeList m k
  else
    match k with
    | .esc => (resetNewModal { m with state := .StateList }, none)
    | .tab => ({ m with newActiveField := (m.newActiveField + 1) % 4 }, none)
    | .down => ({ m with newActiveField := (m.newActiveField + 1) % 4 }, none)
    | .up => ({ m with newActiveField := (m.newActiveField + 3) % 4 }, none)
    | .enter =>
      if m.newActiveField = 0 then ({ m with newTypeListOpen := true }, none)
      else if m.newDisplayName ≠ "" ∧ m.newBranch ≠ "" then
        (m, some (.createWorktree m.newDisplayName m.newBranch
          (".wt/" ++ m.newBranch.replace "/" "-") m.newDescription))
      else (m, none)
    | .space => (appendRunes m [' '], none)
    | .backspace => (deleteChar m, none)
    | .runes rs => (appendRunes m rs, none)
    | _ => (m, none)

/-- `handleRightPaneFocused`: Level-2 commit-list navigation. -/
def handleRightPaneFocused (m : Model) (k : KeyMsg) : Model × Option Cmd :=
  let commits :=
    if 0 < m.cursor ∧ m.cursor - 1 < (m.worktrees.length : Int) then (getWt m).Commits else []
  let s := keyString k
  if s = "q" then (m, some .quit)
  else if s = "esc" then ({ m with state := .StateList }, none)
  else if s = "up" ∨ s = "k" then
    (if 0 < m.selectedCommitIndex then
       { m with selectedCommitIndex := m.selectedCommitIndex - 1 } else m, none)
  else if s = "down" ∨ s = "j" then
    (if m.selectedCommitIndex < (commits.length : Int) - 1 then
       { m with selectedCommitIndex := m.selectedCommitIndex + 1 } else m, none)
  else if s = "enter" then
    if commits ≠ [] ∧ m.selectedCommitIndex < (commits.length : Int) then
      let c := (commits.get? m.selectedCommitIndex.toNat).getD {}
      let wt := getWt m
      ({ m with
          activeCommit := { ShortHash := c.Hash, Subject := c.Message, RelTime := c.RelTime },
          commitDetailScroll := 0,
          state := .StateCommitDetail },
       some (.loadCommitDetail wt.Path c.Hash))
    else (m, none)
  else (m, none)

/-- `handleCommitDetail`: Level-3 overlay keys — escape back to Level 2,
`up` decrements the scroll offset when positive, `down` increments it. -/
def handleCommitDetail (m : Model) (k : KeyMsg) : Model × Option Cmd :=
  let s := keyString k
  if s = "esc" then ({ m with state := .StateRightPaneFocused }, none)
  else if s = "up" ∨ s = "k" then
    (if 0 < m.commitDetailScroll then
       { m with commitDetailScroll := m.commitDetailScroll - 1 } else m, none)
  else if s = "down" ∨ s = "j" then
    ({ m with commitDetailScroll := m.commitDetailScroll + 1 }, none)
  else (m, none)

/-- `handleEditWorktree`: the rename modal.  On enter, a rename command is
issued only when the field differs from the current branch (and then the
state is left unchanged until the completion message); otherwise the state
returns to `StateList` with no command. -/
def handleEditWorktree (m : Model) (k : KeyMsg) : Model × Option Cmd :=
  match k with
  | .esc => ({ m with state := .StateList, editName := "" }, none)
  | .enter =>
    if 0 < m.cursor ∧ m.editName ≠ "" then
      let wt := getWt m
      if wt.Branch ≠ m.editName then (m, some (.renameWorktree wt.Branch m.editName))
      else ({ m with state := .StateList }, none)
    else ({ m with state := .StateList }, none)
  | .backspace => ({ m with editName := dropLast m.editName }, none)
  | .space => ({ m with editName := m.editName ++ " " }, none)
  | .runes rs => ({ m with editName := m.editName ++ String.mk rs }, none)
  | _ => (m, none)

/-- `handleDeleteConfirm`. -/
def handleDeleteConfirm (m : Model) (k : KeyMsg) : Model × Option Cmd :=
  let s := keyString k
  if s = "y" then
    if 0 < m.cursor then
      let wt := getWt m
      (m, some (.deleteWorktree wt.Branch wt.Path))
    else (m, none)
  else if s = "n" ∨ s = "esc" then ({ m with state := .StateList }, none)
  else (m, none)

/-- `handleKey` (update.go): ctrl+c always quits; then a set transient
error banner swallows the key; then the per-state handler runs. -/
def handleKey (m : Model) (k : KeyMsg) : Model × Option Cmd :=
  if keyString k = "ctrl+c" then (m, some .quit)
  else if m.errMsg ≠ "" then ({ m with errMsg := "" }, none)
  else
    match m.state with
    | .StateNoGit => handleNoGit m k
    | .StateShellSetup => handleShellSetup m k
    | .StateList => handleList m k
    | .StateNewWorktree => handleNewWorktree m k
    | .StateEditWorktree => handleEditWorktree m k
    | .StateDeleteConfirm => handleDeleteConfirm m k
    | .StateRightPaneFocused => handleRightPaneFocused m k
    | .StateCommitDetail => handleCommitDetail m k

/-- `Update` (update.go), message branch for message branch.  Note the Go
handler of `worktreesLoadedMsg` copies every payload field except
`hasCommits` (which the message carries but the handler never assigns). -/
def Update (m : Model) (msg : Msg) : Model × Option Cmd :=
  match msg with
  | .windowSize w h => ({ m with width := w, height := h }, none)
  | .gitCheck isGit shellIntegrated =>
    if ¬isGit then ({ m with state := .StateNoGit }, none)
    else if shellIntegrated then ({ m with state := .StateList }, some .loadWorktrees)
    else ({ m with state := .StateShellSetup }, none)
  | .worktreesLoaded d =>
    match d.err with
    | some e => ({ m with errMsg := e }, none)
    | none =>
      let m' := { m with
        worktrees := d.worktrees, repoName := d.repoName, curBranch := d.curBranch,
        remoteURL := d.remoteURL, stashCount := d.stashCount, fetchedAgo := d.fetchedAgo,
        defaultBranch := d.defaultBranch, ghAvailable := d.ghAvailable,
        state := .StateList }
      let m'' :=
        if (m'.worktrees.length : Int) < m'.cursor then
          { m' with cursor := (m'.worktrees.length : Int) }
        else m'
      (m'', maybeFetchPR m'')
  | .prFetched branch info => ({ m with prCache := insertPR branch info m.prCache }, none)
  | .commitDetailLoaded detail err =>
    match err with
    | some e => ({ m with errMsg := e }, none)
    | none =>
      match detail with
      | some d => ({ m with activeCommit := d }, none)
      | none => (m, none)
  | .gitInit err =>
    match err with
    | some e => ({ m with errMsg := e }, none)
    | none => ({ m with state := .StateList }, some .loadWorktrees)
  | .worktreeCreated err =>
    let m' := resetNewModal { m with state := .StateList }
    let m'' : Model := match err with | some e => { m' with errMsg := e } | none => m'
    (m'', some .loadWorktrees)
  | .worktreeDeleted err =>
    let m' := { m with state := .StateList }
    let m'' : Model := match err with | some e => { m' with errMsg := e } | none => m'
    let m3 := if 0 < m''.cursor then { m'' with cursor := m''.cursor - 1 } else m''
    (m3, some .loadWorktrees)
  | .worktreeRenamed err =>
    let m' := { m with state := .StateList }
    let m'' : Model := match err with | some e => { m' with errMsg := e } | none => m'
    (m'', some .loadWorktrees)
  | .key k => handleKey m k

/-- Run a sequence of messages from a model, keeping only the model (the
issued commands run externally). -/
def run (m : Model) (msgs : List Msg) : Model :=
  msgs.foldl (fun m msg => (Update m msg).1) m

end WorktreeTui

namespace WorktreeTui

-- ── Render layer (ui/view.go) ────────────────────────────────────────────────
-- Styles are identity on text (colour only).  `lipgloss.Place` centering,
-- box borders/padding and `JoinVertical`'s width padding are abstracted to
-- the content they decorate: no claim inspects the decoration.

/-- `strings.Repeat(string(c), n)`. -/
def repeatChar (c : Char) (n : Int) : String := String.mk (List.replicate n.toNat c)

/-- `lipgloss.JoinVertical(lipgloss.Left, ...)` (width padding abstracted). -/
def joinVertical (parts : List String) : String := strJoin parts "\n"

/-- `lipgloss.JoinHorizontal(lipgloss.Top, ...)`: blocks side by side,
short blocks padded with blank lines at the bottom, each line padded to
its block's width. -/
def joinHorizontalTop (ss : List String) : String :=
  let blocks := ss.map (fun s => (s.splitOn "\n", lipglossWidth s))
  let h := (blocks.map (fun b => b.1.length)).foldl max 0
  let rows := (List.range h).map (fun r =>
    strJoin (blocks.map (fun b => padRight ((b.1[r]?).getD "") b.2)) "")
  strJoin rows "\n"

/-- `centerModal`: `lipgloss.Place(width, height, Center, Center, modal)` —
the centering whitespace is abstracted away. -/
def centerModal (modal : String) : String := modal

/-- `renderHints`: with identity styles, the key/label split inside each
hint is a no-op, so this is the hints joined by four spaces. -/
def renderHints (hints : List String) : String := strJoin hints "    "

/-- `prBadge`: the PR badge text for a branch, "" when hidden. -/
def prBadge (m : Model) (branch : String) : String :=
  if ¬m.ghAvailable then ""
  else
    match lookupPR branch m.prCache with
    | none => ""
    | some none => "no PR"
    | some (some info) =>
      let st := info.State.toUpper
      if st = "OPEN" then "● open  #" ++ toString info.Number
      else if st = "MERGED" then "✓ merged  #" ++ toString info.Number
      else if st = "CLOSED" then "✗ closed  #" ++ toString info.Number
      else ""

/-- `renderFooter`: a set error banner replaces the hint line wholesale. -/
def renderFooter (m : Model) : String :=
  if m.errMsg ≠ "" then "error: " ++ m.errMsg ++ "    (any key to dismiss)"
  else
    match m.state with
    | .StateList =>
      if m.cursor = 0 then renderHints ["n  new", "↑↓  navigate", "q  quit"]
      else if m.cursor - 1 < (m.worktrees.length : Int) ∧ (getWt m).IsMain then
        renderHints ["n  new", "↑↓  navigate", "q  quit"]
      else
        renderHints ["n  new", "d  delete", "e  edit", "c  cd", "enter  focus",
                     "↑↓  navigate", "q  quit"]
    | .StateRightPaneFocused =>
      renderHints ["↑↓  navigate commits", "enter  view", "esc  back", "q  quit"]
    | _ => renderHints ["q  quit"]

/-- `renderHeader`: app name left; remote/count/stash sections greedily
packed onto line 1, overflow and the fetch timestamp on line 2. -/
def renderHeader (m : Model) : String :=
  let innerW := let w := m.width - 4; if w < 4 then 4 else w
  let sep := " · "
  let sepW := lipglossWidth sep
  let appName := "⎇  worktree"
  let candidates : List String :=
    (if m.remoteURL ≠ "" then [m.remoteURL] else []) ++
    (if 0 < m.worktrees.length then [toString m.worktrees.length ++ " worktrees"] else []) ++
    (if 0 < m.stashCount then ["✦ " ++ toString m.stashCount ++ " stashed"] else [])
  let fit := candidates.foldl
    (fun (acc : Int × List String × List String × Bool) c =>
      let (used, l1, ov, overflowing) := acc
      let needed := sepW + lipglossWidth c
      if ¬overflowing ∧ used + needed ≤ innerW then (used + needed, l1 ++ [c], ov, overflowing)
      else (used, l1, ov ++ [c], true))
    (lipglossWidth appName, [], [], false)
  let line1Sections := fit.2.1
  let overflowSections := fit.2.2.1
  let right1 := strJoin line1Sections sep
  let gap1 := let g := innerW - lipglossWidth appName - lipglossWidth right1
              if g < 0 then 0 else g
  let line1 := appName ++ spaces gap1 ++ right1
  let fetchStr := if m.fetchedAgo ≠ "" then "fetched " ++ m.fetchedAgo else ""
  let line2 :=
    if overflowSections ≠ [] ∨ fetchStr ≠ "" then
      let left2 := strJoin overflowSections sep
      if left2 ≠ "" ∧ fetchStr ≠ "" then
        let gap2 := let g := innerW - lipglossWidth left2 - lipglossWidth fetchStr
                    if g < 1 then 1 else g
        left2 ++ spaces gap2 ++ fetchStr
      else if fetchStr ≠ "" then
        let gap2 := let g := innerW - lipglossWidth fetchStr; if g < 0 then 0 else g
        spaces gap2 ++ fetchStr
      else left2
    else ""
  if line2 ≠ "" then line1 ++ "\n" ++ line2 else line1

/-- `renderItem`: one row of the left list. -/
def renderItem (m : Model) (idx : Int) (name : String) (innerW : Int) (isNewRow : Bool) :
    String :=
  let selected := m.cursor = idx
  let maxNameW := innerW - 2
  let text := truncateS name maxNameW
  if isNewRow then
    if ¬m.hasCommits then
      -- both the selected and unselected Go branches render identically
      "  " ++ (padRight text (maxNameW - 18) ++ "  no commits yet")
    else if selected then "▌" ++ " " ++ padRight text maxNameW
    else "  " ++ padRight text maxNameW
  else if selected then "▌" ++ " " ++ padRight text maxNameW
  else "  " ++ padRight text maxNameW

/-- `renderLeftPane` (pane border abstracted). -/
def renderLeftPane (m : Model) (outerW outerH : Int) : String :=
  let innerW := outerW - 2
  let innerH := outerH - 2
  let rows := renderItem m 0 "+ new worktree" innerW true ::
    m.worktrees.enum.map (fun p => renderItem m ((p.1 : Int) + 1) p.2.Name innerW false)
  let content := strJoin rows "\n"
  let lines := ((content.data.filter (· = '\n')).length : Int) + 1
  content ++ repeatChar '\n' (innerH - lines)

/-- `renderDetail`: the right-pane detail block for one worktree. -/
def renderDetail (m : Model) (wt : Worktree) (innerW : Int) : String :=
  let badge := if ¬wt.IsMain then prBadge m wt.Branch else ""
  let titleLine :=
    if badge ≠ "" then
      let gap := let g := innerW - lipglossWidth wt.Name - lipglossWidth badge
                 if g < 1 then 1 else g
      wt.Name ++ spaces gap ++ badge
    else wt.Name
  let row := fun (label value : String) => "◎" ++ "  " ++ padRight label 8 ++ "  " ++ value ++ "\n"
  let headRow := if wt.HeadSHA ≠ "" then row "HEAD" wt.HeadSHA else ""
  let statusRow :=
    if 0 < wt.StatusChanged ∨ 0 < wt.StatusUntracked then
      let parts :=
        (if 0 < wt.StatusChanged then ["●" ++ " " ++ toString wt.StatusChanged ++ " changed"] else []) ++
        (if 0 < wt.StatusUntracked then [toString wt.StatusUntracked ++ " untracked"] else [])
      row "Status" (strJoin parts "  ")
    else row "Status" "✓ clean"
  let syncRows :=
    if ¬wt.IsMain then
      let def_ := if m.defaultBranch = "" then "main" else m.defaultBranch
      let sync :=
        if 0 < wt.Ahead ∧ 0 < wt.Behind then
          row "Sync" ("↑" ++ toString wt.Ahead ++ " ↓" ++ toString wt.Behind ++
                      " diverged from " ++ def_)
        else if 0 < wt.Ahead then
          row "Sync" ("↑" ++ toString wt.Ahead ++ " ahead of " ++ def_)
        else if 0 < wt.Behind then
          row "Sync" ("↓" ++ toString wt.Behind ++ " behind " ++ def_)
        else row "Sync" ("✓ up to date with " ++ def_)
      sync ++ (if wt.CreatedFrom ≠ "" then row "Created" ("from " ++ wt.CreatedFrom) else "")
    else ""
  let descBlock :=
    if wt.Description ≠ "" then
      let divW := let d := innerW - 14; if d < 3 then 3 else d
      "\n" ++ ("Description " ++ repeatChar '─' divW) ++ "\n\n" ++
        strJoin ((wrapWordsS wt.Description innerW).map (· ++ "\n")) ""
    else ""
  let commitBlock :=
    if wt.Commits ≠ [] then
      let divW := let d := innerW - 10; if d < 3 then 3 else d
      let hint := if m.state = .StateRightPaneFocused then "  " ++ "enter to view" else ""
      let maxMsg := let x := innerW - 28; if x < 10 then 10 else x
      "\n" ++ ("Commits " ++ repeatChar '─' divW ++ hint) ++ "\n\n" ++
        strJoin (wt.Commits.enum.map (fun p =>
          let c := p.2
          let sel := m.state = .StateRightPaneFocused ∧ (p.1 : Int) = m.selectedCommitIndex
          (if sel then "▌" else "●") ++ " " ++ c.Hash ++ "  " ++
            truncateS c.Message maxMsg ++ "  " ++ c.RelTime ++ "\n")) ""
    else ""
  titleLine ++ "\n\n" ++
    row "Branch" wt.Branch ++
    row "Path" (truncateS wt.Path (innerW - 22)) ++
    row "Updated" wt.UpdatedAt ++
    headRow ++ statusRow ++ syncRows ++ descBlock ++ commitBlock

/-- `renderRightPane` (pane border abstracted). -/
def renderRightPane (m : Model) (outerW _outerH : Int) : String :=
  let innerW := outerW - 2
  if m.cursor = 0 then
    if ¬m.hasCommits then
      joinVertical ["Worktrees require at least one commit.", "",
                    "Run  git commit  on the main branch first,",
                    "then worktrees can be created here."]
    else
      "Select \"+ new worktree\" and press enter to create\nor press  n  from anywhere."
  else if m.cursor - 1 < (m.worktrees.length : Int) then renderDetail m (getWt m) innerW
  else ""

-- ── Modals ──────────────────────────────────────────────────────────────────

/-- `renderTypeListModal`. -/
def renderTypeListModal (m : Model) : String :=
  let rows := branchTypes.enum.map (fun p =>
    if (p.1 : Int) = m.newTypeIdx then "▌" ++ " " ++ p.2 else "  " ++ p.2)
  joinVertical ["Select Type", "", strJoin rows "\n", "",
                renderHints ["↑↓  navigate", "enter  select", "esc  close"]]

/-- `renderNoCommitsModal`. -/
def renderNoCommitsModal : String :=
  joinVertical ["New Worktree", "", "✗  Cannot create worktree", "",
                "No commits on main yet.", "Make an initial commit first.", "",
                renderHints ["esc  close"]]

/-- `fieldInput`: a form input line, with a block cursor when active. -/
def fieldInput (value : String) (active : Bool) : String :=
  if active then value ++ "█" else value ++ " "

/-- `renderNewFormModal`: the four-field create form. -/
def renderNewFormModal (m : Model) : String :=
  if ¬m.hasCommits then renderNoCommitsModal
  else
    let typeVal := branchTypeAt m.newTypeIdx
    let typeDisplay := if m.newActiveField = 0 then typeVal ++ "  " ++ "↵ change" else typeVal
    let hints :=
      if m.newActiveField = 0 then
        renderHints ["enter  change type", "tab/↑↓  navigate", "esc  cancel"]
      else renderHints ["enter  create", "tab/↑↓  navigate", "esc  cancel"]
    joinVertical ["New Worktree", "", "Type", typeDisplay, "",
                  "Name", fieldInput m.newDisplayName (m.newActiveField = 1), "",
                  "Branch", fieldInput m.newBranch (m.newActiveField = 2), "",
                  "Description", fieldInput m.newDescription (m.newActiveField = 3), "",
                  hints]

/-- `renderNewModal`: picker overlay or main form. -/
def renderNewModal (m : Model) : String :=
  if m.newTypeListOpen then renderTypeListModal m else renderNewFormModal m

/-- `renderEditModal`. -/
def renderEditModal (m : Model) : String :=
  joinVertical ["Edit Worktree", "", "Branch name", fieldInput m.editName true, "",
                renderHints ["enter  save", "esc  cancel"]]

/-- `renderDeleteModal`. -/
def renderDeleteModal (m : Model) : String :=
  let name := if 0 < m.cursor ∧ m.cursor - 1 < (m.worktrees.length : Int) then (getWt m).Name
              else ""
  joinVertical ["Delete " ++ name ++ "?", "", "This cannot be undone.", "",
                renderHints ["y  confirm", "n / esc  cancel"]]

-- ── Commit-detail overlay (Level 3) ─────────────────────────────────────────

/-- Overlay outer width: 80% of the viewport width, at least 40.
(`Int.tdiv` is Go's truncated division.) -/
def commitDetailOuterW (m : Model) : Int :=
  let w := (m.width * 80).tdiv 100; if w < 40 then 40 else w

/-- Overlay outer height: 80% of the viewport height, at least 10. -/
def commitDetailOuterH (m : Model) : Int :=
  let h := (m.height * 80).tdiv 100; if h < 10 then 10 else h

/-- Overlay inner width (border + padding: 6 columns). -/
def commitDetailInnerW (m : Model) : Int := commitDetailOuterW m - 6

/-- The scroll viewport height: inner height (outer − 4) minus the 2 lines
reserved for the footer hints, at least 1. -/
def commitDetailScrollH (m : Model) : Int :=
  let innerH := commitDetailOuterH m - 4
  let sh := innerH - 2
  if sh < 1 then 1 else sh

/-- The flat line buffer of `renderCommitDetailOverlay` before scrolling:
header (hash/reltime), blank, truncated subject, optional wrapped body,
then either the loading placeholder or the files-changed and diff
sections. -/
def commitDetailLines (m : Model) : List String :=
  let innerW := commitDetailInnerW m
  let cd := m.activeCommit
  let gap := let g := innerW - lipglossWidth cd.ShortHash - lipglossWidth cd.RelTime
             if g < 1 then 1 else g
  let headerLines := [cd.ShortHash ++ spaces gap ++ cd.RelTime, ""]
  let subjectLines := [truncateS cd.Subject innerW]
  let bodyLines := if cd.Body ≠ "" then "" :: wrapWordsS cd.Body innerW else []
  let tailLines :=
    if ¬cd.Loaded then ["", "Loading…"]
    else
      let fileLines :=
        if cd.Files ≠ [] then
          let hdr := "Files changed (" ++ toString cd.Files.length ++ ") "
          let divW := let d := innerW - lipglossWidth hdr; if d < 0 then 0 else d
          ["", hdr ++ repeatChar '─' divW, ""] ++
            cd.Files.map (fun f => "●" ++ "  " ++ f.Status ++ "  " ++ f.Path)
        else []
      let diffLines :=
        if cd.Diff ≠ [] then
          let diffHdr := "Diff "
          let divW := let d := innerW - lipglossWidth diffHdr; if d < 0 then 0 else d
          -- every diff-line category renders the same truncated content
          ["", diffHdr ++ repeatChar '─' divW, ""] ++
            cd.Diff.map (fun dl => truncateS dl.Content innerW)
        else []
      fileLines ++ diffLines
  headerLines ++ subjectLines ++ bodyLines ++ tailLines

/-- `total` in the overlay's scroll computation. -/
def commitDetailTotal (m : Model) : Int := ((commitDetailLines m).length : Int)

/-- `maxScroll := total - scrollH; if maxScroll < 0 { maxScroll = 0 }`. -/
def commitDetailMaxScroll (m : Model) : Int :=
  let ms := commitDetailTotal m - commitDetailScrollH m
  if ms < 0 then 0 else ms

/-- The effective scroll the overlay renders with:
`scroll := m.commitDetailScroll; if scroll > maxScroll { scroll = maxScroll }`. -/
def commitDetailEffScroll (m : Model) : Int :=
  if commitDetailMaxScroll m < m.commitDetailScroll then commitDetailMaxScroll m
  else m.commitDetailScroll

/-- `renderCommitDetailOverlay`: slice the line buffer at the clamped
scroll, pad to the viewport height, append the hint footer (box border
abstracted). -/
def renderCommitDetailOverlay (m : Model) : String :=
  let lines := commitDetailLines m
  let scrollH := commitDetailScrollH m
  let total := (lines.length : Int)
  let scroll := commitDetailEffScroll m
  let visible0 := if 0 < scroll ∧ scroll < total then lines.drop scroll.toNat else lines
  let visible1 := if scrollH < (visible0.length : Int) then visible0.take scrollH.toNat
                  else visible0
  let visible := visible1 ++ List.replicate (scrollH - visible1.length).toNat ""
  let scrollInfo :=
    if scrollH < total then "  " ++ toString (scroll + 1) ++ "/" ++ toString total else ""
  let hints := renderHints ["↑↓  scroll", "esc  close"] ++ scrollInfo
  strJoin visible "\n" ++ "\n\n" ++ hints

-- ── Top-level views ─────────────────────────────────────────────────────────

/-- `viewNoGit` (centering abstracted). -/
def viewNoGit (m : Model) : String :=
  renderHeader m ++ "\n" ++
    joinVertical ["No git repository found.", "", "Would you like to initialise one?", "",
                  renderHints ["i  init", "q  quit"]]

/-- `viewShellSetup` (centering abstracted). -/
def viewShellSetup (m : Model) : String :=
  renderHeader m ++ "\n" ++
    joinVertical ["⚡ Add shell integration for cd-on-exit?", "",
                  "This adds a wt() function to your shell rc file.",
                  "Invoke wt instead of worktree-tui to use it.", "",
                  renderHints ["y  add it", "n  skip"]]

/-- `viewMain`: modal states render a centered modal; browsing states
render header, panes and footer. -/
def viewMain (m : Model) : String :=
  match m.state with
  | .StateNewWorktree => centerModal (renderNewModal m)
  | .StateEditWorktree => centerModal (renderEditModal m)
  | .StateDeleteConfirm => centerModal (renderDeleteModal m)
  | .StateCommitDetail => centerModal (renderCommitDetailOverlay m)
  | _ =>
    let header := renderHeader m
    let footer := renderFooter m
    let headerH := lipglossHeight header
    let footerH := lipglossHeight footer
    let paneOuterH := let p := m.height - headerH - footerH - 2; if p < 3 then 3 else p
    let leftOuterW := let l := m.width.tdiv 4; if l < 22 then 22 else l
    let rightOuterW := m.width - leftOuterW - 2
    let panes := joinHorizontalTop
      [renderLeftPane m leftOuterW paneOuterH, "  ", renderRightPane m rightOuterW paneOuterH]
    strJoin [header, "", panes, "", footer] "\n"

/-- `View` (view.go): the empty frame until both dimensions are known,
then the state-appropriate screen. -/
def View (m : Model) : String :=
  if m.width = 0 ∨ m.height = 0 then ""
  else
    match m.state with
    | .StateNoGit => viewNoGit m
    | .StateShellSetup => viewShellSetup m
    | _ => viewMain m

end WorktreeTui

namespace WorktreeTui

-- ── Concrete fixtures used by witnesses and counterexamples ─────────────────

/-- A model with the transient error banner set. -/
def errModel : Model := { errMsg := "boom", state := .StateList, cursor := 0 }

/-- A list-state model with three worktrees and the cursor on the first. -/
def delModel : Model :=
  { state := .StateList, cursor := 1,
    worktrees := [{ Branch := "feat/a" }, { Branch := "feat/b" }, { Branch := "feat/c" }] }

/-- A model sitting in the commit-detail overlay: 100×10 viewport, a
not-yet-loaded commit detail (5 buffer lines, viewport 4, max scroll 1),
stored scroll at the maximum. -/
def cdModel : Model :=
  { state := .StateCommitDetail, width := 100, height := 10, commitDetailScroll := 1 }

/-- A model with gh available and a cached PR entry for branch `feat/b`. -/
def prModel : Model :=
  { state := .StateList, ghAvailable := true,
    worktrees := [{ Branch := "feat/a" }, { Branch := "feat/b" }],
    prCache := [("feat/b", some { State := "OPEN", Number := 7 })] }

/-- A rename modal whose field still equals the selected branch. -/
def editModel : Model :=
  { state := .StateEditWorktree, cursor := 1,
    worktrees := [{ Branch := "feat/x" }], editName := "feat/x" }

-- ── C10 ─────────────────────────────────────────────────────────────────────

/-- C10: for every model whose viewport width or height is 0 (in
particular before the first resize message), `View` returns the empty
frame, whatever the mode and data. -/
theorem view_empty_when_unsized (m : Model) (h : m.width = 0 ∨ m.height = 0) :
    View m = "" := by
  unfold View
  rcases h with h | h <;> simp [h]

/-- Witness for `view_empty_when_unsized` at the initial model. -/
theorem view_empty_when_unsized_witness :
    InitialModel.width = 0 ∧ View InitialModel = "" :=
  ⟨rfl, view_empty_when_unsized InitialModel (Or.inl rfl)⟩

-- ── C1 ──────────────────────────────────────────────────────────────────────

/-- C1 (amended): when the transient error message is set, the next key
press — for every key other than ctrl+c, in every state — only clears the
error message: no other state change, no command, no state-specific
handling. -/
theorem error_banner_swallows_next_key (m : Model) (k : KeyMsg)
    (he : m.errMsg ≠ "") (hk : keyString k ≠ "ctrl+c") :
    handleKey m k = ({ m with errMsg := "" }, none) := by
  unfold handleKey
  rw [if_neg hk, if_pos he]

/-- Witness for `error_banner_swallows_next_key`. -/
theorem error_banner_swallows_next_key_witness :
    errModel.errMsg ≠ "" ∧ keyString .esc ≠ "ctrl+c" ∧
      handleKey errModel .esc = ({ errModel with errMsg := "" }, none) :=
  ⟨by decide, by decide,
   error_banner_swallows_next_key errModel .esc (by decide) (by decide)⟩

/-- C1 counterexample: with the error banner set, pressing ctrl+c does
not clear the error and issues the quit command — the claim's "for every
key" fails on ctrl+c, which `handleKey` intercepts before the banner
check. -/
theorem error_banner_ctrlc_cex :
    errModel.errMsg ≠ "" ∧ handleKey errModel .ctrlC = (errModel, some .quit) ∧
      (handleKey errModel .ctrlC).1.errMsg ≠ "" :=
  ⟨by decide, rfl, by decide⟩

-- ── C5 ──────────────────────────────────────────────────────────────────────

/-- C5 (amended): a worktree-deletion completion returns the state to
`StateList`, records the error text if any, decrements the cursor
whenever it is positive (regardless of the list length), and issues a
reload command. -/
theorem worktree_deleted_transition (m : Model) (err : Option String) :
    Update m (.worktreeDeleted err) =
      ({ m with state := .StateList,
                errMsg := err.getD m.errMsg,
                cursor := if 0 < m.cursor then m.cursor - 1 else m.cursor },
       some .loadWorktrees) := by
  cases err <;> unfold Update <;> dsimp only <;> split <;> rfl

/-- C5 counterexample: with three worktrees and the cursor at 1 — within
bounds even for the post-deletion list of length 2 — the completion still
decrements the cursor to 0, refuting "decremented if and only if it now
exceeds the list length". -/
theorem worktree_deleted_unconditional_decrement_cex :
    delModel.cursor = 1 ∧
      delModel.cursor ≤ (delModel.worktrees.length : Int) - 1 ∧
      (Update delModel (.worktreeDeleted none)).1.cursor = 0 :=
  ⟨rfl, by decide, by decide⟩

-- ── C8 ──────────────────────────────────────────────────────────────────────

/-- Updating one key of the PR cache leaves every other key's lookup
unchanged. -/
theorem lookupPR_insertPR_ne (k b : String) (v : Option PRInfo) (c : PRCache)
    (h : b ≠ k) : lookupPR b (insertPR k v c) = lookupPR b c := by
  induction c with
  | nil =>
    simp only [insertPR, lookupPR]
    rw [if_neg (fun hh => h hh.symm)]
  | cons hd tl ih =>
    obtain ⟨k', v'⟩ := hd
    simp only [insertPR]
    by_cases hk : k' = k
    · subst hk
      simp only [if_pos rfl, lookupPR]
      rw [if_neg (fun hh => h hh.symm), if_neg (fun hh => h hh.symm)]
    · rw [if_neg hk]
      simp only [lookupPR]
      by_cases hb : k' = b
      · rw [if_pos hb, if_pos hb]
      · rw [if_neg hb, if_neg hb, ih]

/-- C8: a PR-status completion is applied by its branch-name key only: it
sets that cache entry, changes nothing else and issues no command, and the
badge rendered for every other branch is unaffected. -/
theorem pr_result_keyed_by_branch (m : Model) (branch : String) (info : Option PRInfo) :
    Update m (.prFetched branch info) =
      ({ m with prCache := insertPR branch info m.prCache }, none)
    ∧ ∀ b, b ≠ branch →
        prBadge (Update m (.prFetched branch info)).1 b = prBadge m b := by
  refine ⟨rfl, fun b hb => ?_⟩
  show prBadge { m with prCache := insertPR branch info m.prCache } b = prBadge m b
  unfold prBadge
  rw [show ({ m with prCache := insertPR branch info m.prCache } : Model).prCache =
        insertPR branch info m.prCache from rfl,
      lookupPR_insertPR_ne branch b info m.prCache hb]

/-- Witness for `pr_result_keyed_by_branch`: a fetch for `feat/a`
completing while `feat/b` is selected leaves `feat/b`'s badge intact. -/
theorem pr_result_keyed_by_branch_witness :
    ("feat/b" : String) ≠ "feat/a" ∧
      prBadge (Update prModel (.prFetched "feat/a" none)).1 "feat/b" =
        prBadge prModel "feat/b" :=
  ⟨by decide, (pr_result_keyed_by_branch prModel "feat/a" none).2 "feat/b" (by decide)⟩

-- ── C2 ──────────────────────────────────────────────────────────────────────

/-- C2 (amended): the stored overlay scroll offset never goes below 0
(`up` clamps at 0, `down` only increments), and the renderer's effective
scroll — the value the overlay actually slices with — is always within
`[0, max(0, totalLines − viewportLines)]`. -/
theorem commit_detail_scroll_clamp (m : Model) (k : KeyMsg)
    (h : 0 ≤ m.commitDetailScroll) :
    0 ≤ (handleCommitDetail m k).1.commitDetailScroll
    ∧ 0 ≤ commitDetailEffScroll (handleCommitDetail m k).1
    ∧ commitDetailEffScroll (handleCommitDetail m k).1 ≤
        commitDetailMaxScroll (handleCommitDetail m k).1 := by
  have hs : 0 ≤ (handleCommitDetail m k).1.commitDetailScroll := by
    unfold handleCommitDetail
    dsimp only
    split_ifs <;> simp <;> omega
  have hmax : 0 ≤ commitDetailMaxScroll (handleCommitDetail m k).1 := by
    unfold commitDetailMaxScroll
    dsimp only
    split_ifs <;> omega
  refine ⟨hs, ?_, ?_⟩ <;>
    · unfold commitDetailEffScroll
      split_ifs <;> omega

/-- Witness for `commit_detail_scroll_clamp`. -/
theorem commit_detail_scroll_clamp_witness :
    0 ≤ cdModel.commitDetailScroll ∧
      (0 ≤ (handleCommitDetail cdModel .down).1.commitDetailScroll
       ∧ 0 ≤ commitDetailEffScroll (handleCommitDetail cdModel .down).1
       ∧ commitDetailEffScroll (handleCommitDetail cdModel .down).1 ≤
           commitDetailMaxScroll (handleCommitDetail cdModel .down).1) :=
  ⟨by decide, commit_detail_scroll_clamp cdModel .down (by decide)⟩

/-- C2 counterexample: in the overlay state with 5 buffer lines and a
4-line viewport (max scroll 1) and the stored offset at 1 — inside the
claimed range — one `down` key press stores offset 2, outside
`[0, max(0, totalLines − viewportLines)]`: the stored offset is not
clamped (only the rendered offset is). -/
theorem commit_detail_stored_scroll_unclamped_cex :
    cdModel.state = .StateCommitDetail
    ∧ cdModel.commitDetailScroll ≤ commitDetailMaxScroll cdModel
    ∧ (Update cdModel (.key .down)).1.commitDetailScroll = 2
    ∧ commitDetailMaxScroll (Update cdModel (.key .down)).1 = 1
    ∧ ¬((Update cdModel (.key .down)).1.commitDetailScroll ≤
          commitDetailMaxScroll (Update cdModel (.key .down)).1) :=
  ⟨rfl, by decide, by decide, by decide, by decide⟩

end WorktreeTui

namespace WorktreeTui

-- ── C9 ──────────────────────────────────────────────────────────────────────

/-- C9: submitting the rename modal with a value identical to the selected
worktree's branch issues no command and goes straight back to `StateList`;
and whenever enter does issue a command, it is a rename command whose new
name is the field value and whose old name differs from it. -/
theorem rename_submit_idempotent (m : Model)
    (hstate : m.state = .StateEditWorktree) (herr : m.errMsg = "") :
    (∀ wt, 0 < m.cursor → m.worktrees.get? (m.cursor - 1).toNat = some wt →
       m.editName = wt.Branch →
       handleKey m .enter = ({ m with state := .StateList }, none))
    ∧ (∀ p c, handleKey m .enter = (p, some c) →
        ∃ old, c = Cmd.renameWorktree old m.editName ∧ old ≠ m.editName) := by
  have hkey : handleKey m .enter = handleEditWorktree m .enter := by
    unfold handleKey
    rw [if_neg (by decide : ¬(keyString .enter = "ctrl+c"))]
    rw [if_neg (by simp [herr])]
    rw [hstate]
  constructor
  · intro wt hc hget hname
    rw [hkey]
    unfold handleEditWorktree
    have hwt : getWt m = wt := by
      unfold getWt
      rw [hget]
      rfl
    by_cases he : m.editName = ""
    · rw [if_neg (by simp [he])]
    · rw [if_pos ⟨hc, he⟩]
      dsimp only
      rw [hwt, if_neg (by simp [hname])]
  · intro p c h
    rw [hkey] at h
    unfold handleEditWorktree at h
    by_cases h1 : 0 < m.cursor ∧ m.editName ≠ ""
    · rw [if_pos h1] at h
      dsimp only at h
      by_cases h2 : (getWt m).Branch ≠ m.editName
      · rw [if_pos h2] at h
        refine ⟨(getWt m).Branch, ?_, h2⟩
        have h' := congrArg Prod.snd h
        simp only [Option.some.injEq] at h'
        exact h'.symm
      · rw [if_neg h2] at h
        exact absurd (congrArg Prod.snd h) (by simp)
    · rw [if_neg h1] at h
      exact absurd (congrArg Prod.snd h) (by simp)

/-- Witness for `rename_submit_idempotent`: enter on an unchanged rename
field returns to the list with no command. -/
theorem rename_submit_idempotent_witness :
    handleKey editModel .enter = ({ editModel with state := .StateList }, none) :=
  (rename_submit_idempotent editModel rfl rfl).1 { Branch := "feat/x" }
    (by decide) (by decide) rfl

-- ── C7 ──────────────────────────────────────────────────────────────────────

/-- C7: `truncate` output is never wider than `w` (for `w ≥ 0`); input at
most `w` wide is returned exactly; an over-wide input with `w ≥ 2` becomes
the longest prefix plus one ellipsis glyph, exactly `w` wide; `w = 1`
gives a bare one-character prefix; `w ≤ 0` gives the empty string. -/
theorem truncate_spec (s : List Char) (w : Int) :
    (0 ≤ w → ((truncate s w).length : Int) ≤ w)
    ∧ ((s.length : Int) ≤ w → truncate s w = s)
    ∧ (w < (s.length : Int) → 2 ≤ w →
        truncate s w = s.take (w.toNat - 1) ++ ['…']
        ∧ ((truncate s w).length : Int) = w)
    ∧ (w = 1 → 1 < (s.length : Int) → truncate s w = s.take 1)
    ∧ (w ≤ 0 → truncate s w = []) := by
  unfold truncate
  split_ifs with h1 h2 h3
  · refine ⟨fun h0 => by simpa using h0, fun hl => ?_, fun hl h2w => by omega,
            fun hw => by omega, fun _ => rfl⟩
    have hz : s.length = 0 := by omega
    exact (List.length_eq_zero.mp hz).symm
  · exact ⟨fun _ => h2, fun _ => rfl, fun hl _ => by omega, fun hw hl => by omega,
           fun h0 => by omega⟩
  · have hw1 : w = 1 := by omega
    subst hw1
    refine ⟨fun _ => ?_, fun hl => by omega, fun _ h2w => by omega,
            fun _ _ => rfl, fun h0 => by omega⟩
    simp only [List.length_take]
    omega
  · refine ⟨fun _ => ?_, fun hl => by omega, fun _ _ => ⟨rfl, ?_⟩,
            fun hw _ => by omega, fun h0 => by omega⟩ <;>
      · simp only [List.length_append, List.length_take, List.length_cons,
                   List.length_nil]
        omega

/-- Witness for `truncate_spec`. -/
theorem truncate_spec_witness :
    ((truncate "hello".data 3).length : Int) ≤ 3 ∧ truncate "hello".data 3 = "he…".data :=
  ⟨(truncate_spec "hello".data 3).1 (by decide), by decide⟩

end WorktreeTui

namespace WorktreeTui

-- ── C3 helper lemmas ────────────────────────────────────────────────────────

/-- After trimming, the last character is never a separator. -/
theorem trimRightSep_getLast (l : List Char) :
    ∀ c, (trimRightSep l).getLast? = some c → isSep c = false := by
  induction l with
  | nil => intro c h; simp [trimRightSep] at h
  | cons a as ih =>
    intro c h
    simp only [trimRightSep] at h
    cases htr : trimRightSep as with
    | nil =>
      rw [htr] at h
      dsimp only at h
      split_ifs at h with hs
      · simp at h
      · simp at h
        rw [← h]
        simpa using hs
    | cons b bs =>
      rw [htr] at h
      dsimp only at h
      rw [List.getLast?_cons_cons] at h
      exact ih c (by rw [htr]; exact h)

/-- Trimming only removes characters from the right: a head of the
trimmed list is the head of the original. -/
theorem trimRightSep_head (l : List Char) :
    ∀ c, (trimRightSep l).head? = some c → l.head? = some c := by
  induction l with
  | nil => intro c h; simp [trimRightSep] at h
  | cons a as _ =>
    intro c h
    simp only [trimRightSep] at h
    cases htr : trimRightSep as with
    | nil =>
      rw [htr] at h
      dsimp only at h
      split_ifs at h with hs
      · simp at h
      · simp at h
        simp [h]
    | cons b bs =>
      rw [htr] at h
      dsimp only at h
      simp at h
      simp [h]

/-- Appending a non-hyphen character preserves "the head is not a
hyphen". -/
theorem head_inv_append (b : List Char) (r : Char)
    (hb : ∀ c, b.head? = some c → c ≠ '-') (hr : r ≠ '-') :
    ∀ c, (b ++ [r]).head? = some c → c ≠ '-' := by
  intro c hc
  cases b with
  | nil => simp at hc; exact hc ▸ hr
  | cons x xs => simp at hc; exact hc ▸ hb x rfl

/-- The builder loop of `slugify` never makes the head of the builder a
hyphen: a hyphen is only ever written to a non-empty builder. -/
theorem slugifyLoop_head :
    ∀ (rs b : List Char) (p : Bool),
      (∀ c, b.head? = some c → c ≠ '-') →
      ∀ c, (slugifyLoop rs b p).head? = some c → c ≠ '-' := by
  intro rs
  induction rs with
  | nil => intro b p hb c h; exact hb c h
  | cons r rs ih =>
    intro b p hb c h
    simp only [slugifyLoop] at h
    split_ifs at h with h1 h2 h3 h4
    · refine ih _ _ (head_inv_append b r hb ?_) c h
      rintro rfl
      exact absurd h1 (by decide)
    · exact ih _ _ (head_inv_append b '/' hb (by decide)) c h
    · refine ih _ _ ?_ c h
      intro c' hc'
      cases hb' : b with
      | nil => exact absurd hb' h4.2
      | cons x xs =>
        rw [hb'] at hc'
        simp at hc'
        exact hc' ▸ hb x (by rw [hb']; rfl)
    · exact ih _ _ hb c h
    · exact ih _ _ hb c h

-- ── C3 ──────────────────────────────────────────────────────────────────────

/-- C3 (amended): the worked examples hold, runs of separators collapse
to one hyphen, and the output never begins with a hyphen and never ends
with a hyphen or a slash.  (A leading slash, however, is preserved — see
the counterexample — so "never begins with a separator" holds only for
the hyphen.) -/
theorem slugify_spec :
    slugifyS "Feat: Auth Refresh" = "feat-auth-refresh"
    ∧ slugifyS "a/b  c" = "a/b-c"
    ∧ slugifyS "a_-  b" = "a-b"
    ∧ (∀ (s : List Char) (c : Char), (slugify s).head? = some c → c ≠ '-')
    ∧ (∀ (s : List Char) (c : Char), (slugify s).getLast? = some c → c ≠ '-' ∧ c ≠ '/') := by
  refine ⟨by decide, by decide, by decide, ?_, ?_⟩
  · intro s c h
    unfold slugify at h
    have h2 := trimRightSep_head _ c h
    exact slugifyLoop_head _ [] false (by intro c' hc'; simp at hc') c h2
  · intro s c h
    unfold slugify at h
    have h2 := trimRightSep_getLast _ c h
    simpa [isSep] using h2

/-- Witness for `slugify_spec`. -/
theorem slugify_spec_witness :
    (slugify "ab".data).head? = some 'a' ∧ 'a' ≠ '-' :=
  ⟨by decide, slugify_spec.2.2.2.1 "ab".data 'a' (by decide)⟩

/-- C3 counterexample: `slugify "/a"` is `"/a"` — the output begins with
the separator `/`, refuting "leading separators are stripped / the output
never begins with a separator". -/
theorem slugify_leading_slash_cex :
    slugifyS "/a" = "/a" ∧ (slugify "/a".data).head? = some '/' ∧ isSep '/' = true :=
  ⟨by decide, by decide, rfl⟩

-- ── C6 ──────────────────────────────────────────────────────────────────────

/-- Soundness of the greedy word-packing loop: if every pending word is
from the pool `S`, every emitted line either fits in `width` or is one of
the pool's words (emitted alone, unshortened). -/
theorem packLoop_sound (width : Int) (S : List (List Char)) :
    ∀ (ws lines : List (List Char)) (line : List Char),
      (∀ w ∈ ws, w ∈ S) →
      (∀ l ∈ lines, (l.length : Int) ≤ width ∨ l ∈ S) →
      (line = [] ∨ (line.length : Int) ≤ width ∨ line ∈ S) →
      ∀ l ∈ packLoop width lines line ws, (l.length : Int) ≤ width ∨ l ∈ S := by
  intro ws
  induction ws with
  | nil =>
    intro lines line _ hlines hline l hl
    simp only [packLoop] at hl
    split_ifs at hl with h0
    · exact hlines l hl
    · rw [List.mem_append] at hl
      rcases hl with hl | hl
      · exact hlines l hl
      · simp at hl
        subst hl
        rcases hline with rfl | h
        · exact absurd rfl h0
        · exact h
  | cons w ws ih =>
    intro lines line hws hlines hline l hl
    simp only [packLoop] at hl
    split_ifs at hl with h0 h1
    · exact ih lines w (fun x hx => hws x (List.mem_cons_of_mem _ hx)) hlines
        (Or.inr (Or.inr (hws w (List.mem_cons_self _ _)))) l hl
    · refine ih lines (line ++ ' ' :: w)
        (fun x hx => hws x (List.mem_cons_of_mem _ hx)) hlines
        (Or.inr (Or.inl ?_)) l hl
      push_cast [List.length_append, List.length_cons]
      push_cast at h1
      omega
    · refine ih (lines ++ [line]) w
        (fun x hx => hws x (List.mem_cons_of_mem _ hx)) ?_
        (Or.inr (Or.inr (hws w (List.mem_cons_self _ _)))) l hl
      intro x hx
      rw [List.mem_append] at hx
      rcases hx with hx | hx
      · exact hlines x hx
      · simp at hx
        subst hx
        rcases hline with rfl | h
        · exact absurd rfl h0
        · exact h

/-- C6 (amended): for every width ≥ 1, every line `wrapWords` produces
either fits within the width or is a single input word emitted alone and
unshortened.  (For width ≤ 0 the whole input comes back as one line —
see the counterexample.) -/
theorem wrapWords_line_width (s : List Char) (width : Int) (hw : 1 ≤ width) :
    ∀ l ∈ wrapWords s width, (l.length : Int) ≤ width ∨ l ∈ allWords s := by
  unfold wrapWords
  rw [if_neg (by omega)]
  have key : ∀ (paras lines0 : List (List Char)),
      (∀ p ∈ paras, p ∈ splitOnChar '\n' s) →
      (∀ l ∈ lines0, (l.length : Int) ≤ width ∨ l ∈ allWords s) →
      ∀ l ∈ paras.foldl (fun lines para => packLoop width lines [] (fields para)) lines0,
        (l.length : Int) ≤ width ∨ l ∈ allWords s := by
    intro paras
    induction paras with
    | nil => intro lines0 _ h0 l hl; exact h0 l (by simpa using hl)
    | cons p ps ih =>
      intro lines0 hmem h0 l hl
      simp only [List.foldl_cons] at hl
      refine ih _ (fun q hq => hmem q (List.mem_cons_of_mem _ hq)) ?_ l hl
      intro x hx
      refine packLoop_sound width (allWords s) (fields p) lines0 [] ?_ h0 (Or.inl rfl) x hx
      intro w hw'
      unfold allWords
      exact List.mem_flatten.mpr
        ⟨fields p, List.mem_map_of_mem _ (hmem p (List.mem_cons_self _ _)), hw'⟩
  exact key (splitOnChar '\n' s) [] (fun p hp => hp) (by simp)

/-- Witness for `wrapWords_line_width`. -/
theorem wrapWords_line_width_witness :
    "hello".data ∈ wrapWords "hello world".data 5
    ∧ (("hello".data.length : Int) ≤ 5 ∨ "hello".data ∈ allWords "hello world".data) :=
  ⟨by decide, wrapWords_line_width "hello world".data 5 (by decide) "hello".data (by decide)⟩

/-- C6 counterexample: with width 0 the whole input — two words, five
characters — comes back as a single line wider than the width that is not
a single word, refuting the claim's "for every width". -/
theorem wrapWords_zero_width_cex :
    wrapWords "ab cd".data 0 = ["ab cd".data]
    ∧ ¬(("ab cd".data.length : Int) ≤ 0)
    ∧ "ab cd".data ∉ allWords "ab cd".data :=
  ⟨rfl, by decide, by decide⟩

end WorktreeTui

namespace WorktreeTui

-- ── C4: the cursor invariant ────────────────────────────────────────────────

/-- The selection-cursor invariant: `0 ≤ cursor ≤ len(worktrees)`
(0 is the synthetic "create new" row). -/
def CursorInv (m : Model) : Prop :=
  0 ≤ m.cursor ∧ m.cursor ≤ (m.worktrees.length : Int)

theorem resetNewModal_inv {m : Model} (h : CursorInv m) : CursorInv (resetNewModal m) := h

theorem recalcBranch_inv {m : Model} (h : CursorInv m) : CursorInv (recalcBranch m) := by
  unfold recalcBranch
  split_ifs with h1
  · exact h
  · dsimp only
    split_ifs <;> exact h

theorem appendRunes_inv {m : Model} (rs : List Char) (h : CursorInv m) :
    CursorInv (appendRunes m rs) := by
  unfold appendRunes
  split_ifs <;> first | exact h | exact recalcBranch_inv h

theorem deleteChar_inv {m : Model} (h : CursorInv m) : CursorInv (deleteChar m) := by
  unfold deleteChar
  split_ifs <;> first | exact h | exact recalcBranch_inv h

theorem handleNoGit_inv {m : Model} (k : KeyMsg) (h : CursorInv m) :
    CursorInv (handleNoGit m k).1 := by
  unfold handleNoGit
  dsimp only
  split_ifs <;> exact h

theorem handleShellSetup_inv {m : Model} (k : KeyMsg) (h : CursorInv m) :
    CursorInv (handleShellSetup m k).1 := by
  unfold handleShellSetup
  dsimp only
  split_ifs <;> exact h

theorem handleTypeList_inv {m : Model} (k : KeyMsg) (h : CursorInv m) :
    CursorInv (handleTypeList m k).1 := by
  unfold handleTypeList
  dsimp only
  split_ifs <;> first | exact h | exact recalcBranch_inv h

theorem handleNewWorktree_inv {m : Model} (k : KeyMsg) (h : CursorInv m) :
    CursorInv (handleNewWorktree m k).1 := by
  unfold handleNewWorktree
  by_cases ho : m.newTypeListOpen
  · rw [if_pos ho]
    exact handleTypeList_inv k h
  · rw [if_neg ho]
    cases k <;> dsimp only <;>
      first
        | exact h
        | exact resetNewModal_inv h
        | exact appendRunes_inv _ h
        | exact deleteChar_inv h
        | (split_ifs <;> exact h)

theorem handleRightPaneFocused_inv {m : Model} (k : KeyMsg) (h : CursorInv m) :
    CursorInv (handleRightPaneFocused m k).1 := by
  unfold handleRightPaneFocused
  dsimp only
  split_ifs <;> exact h

theorem handleCommitDetail_inv {m : Model} (k : KeyMsg) (h : CursorInv m) :
    CursorInv (handleCommitDetail m k).1 := by
  unfold handleCommitDetail
  dsimp only
  split_ifs <;> exact h

theorem handleEditWorktree_inv {m : Model} (k : KeyMsg) (h : CursorInv m) :
    CursorInv (handleEditWorktree m k).1 := by
  unfold handleEditWorktree
  cases k <;> dsimp only <;> first | exact h | (split_ifs <;> exact h)

theorem handleDeleteConfirm_inv {m : Model} (k : KeyMsg) (h : CursorInv m) :
    CursorInv (handleDeleteConfirm m k).1 := by
  unfold handleDeleteConfirm
  dsimp only
  split_ifs <;> exact h

theorem handleList_inv {m : Model} (k : KeyMsg) (h : CursorInv m) :
    CursorInv (handleList m k).1 := by
  unfold handleList openNewModal resetNewModal
  dsimp only
  split_ifs <;>
    first
      | exact h
      | (unfold CursorInv at h ⊢; (try dsimp only); omega)

theorem handleKey_inv {m : Model} (k : KeyMsg) (h : CursorInv m) :
    CursorInv (handleKey m k).1 := by
  unfold handleKey
  split_ifs with h1 h2
  · exact h
  · exact h
  · cases hs : m.state <;> dsimp only <;>
      first
        | exact handleNoGit_inv k h
        | exact handleShellSetup_inv k h
        | exact handleList_inv k h
        | exact handleNewWorktree_inv k h
        | exact handleEditWorktree_inv k h
        | exact handleDeleteConfirm_inv k h
        | exact handleRightPaneFocused_inv k h
        | exact handleCommitDetail_inv k h

/-- Every `Update` step preserves the cursor invariant. -/
theorem Update_inv {m : Model} (msg : Msg) (h : CursorInv m) :
    CursorInv (Update m msg).1 := by
  cases msg with
  | windowSize w hh => exact h
  | gitCheck isGit shellIntegrated =>
    unfold Update
    dsimp only
    split_ifs <;> exact h
  | worktreesLoaded d =>
    unfold Update
    dsimp only
    cases herr : d.err with
    | some e => exact h
    | none =>
      dsimp only
      split_ifs <;> (unfold CursorInv at h ⊢; (try dsimp only); omega)
  | prFetched branch info => exact h
  | commitDetailLoaded detail err =>
    unfold Update
    cases err with
    | some e => exact h
    | none => cases detail <;> exact h
  | gitInit err =>
    unfold Update
    cases err <;> exact h
  | worktreeCreated err =>
    unfold Update
    cases err <;> exact resetNewModal_inv h
  | worktreeDeleted err =>
    unfold Update
    cases err <;> (try dsimp only) <;> split_ifs <;>
      (unfold CursorInv at h ⊢; (try dsimp only); omega)
  | worktreeRenamed err =>
    unfold Update
    cases err <;> exact h
  | key k => exact handleKey_inv k h

/-- The invariant is preserved along any message trace. -/
theorem run_inv {m : Model} (msgs : List Msg) (h : CursorInv m) :
    CursorInv (run m msgs) := by
  induction msgs generalizing m with
  | nil => exact h
  | cons msg msgs ih => exact ih (Update_inv msg h)

/-- C4: for every sequence of input events processed from the initial
model, the selection cursor stays within `[0, len(worktrees)]` for the
currently loaded list (the bound holds again after every single event, so
it holds at all times). -/
theorem cursor_always_in_range (msgs : List Msg) :
    0 ≤ (run InitialModel msgs).cursor
    ∧ (run InitialModel msgs).cursor ≤ (((run InitialModel msgs).worktrees.length : Int)) :=
  run_inv msgs ⟨le_refl 0, by simp [InitialModel]⟩

end WorktreeTui
